import Mathlib

/-!
Verification of the flstudio-mcp note-transfer protocol: the encoder
(`send_melody` in `trigger.py`), the receiver state machine (`OnMidiMsg` in
`Test Controller/device_test.py`) and the playback/recording schedulers
(`record_notes_batch` in `device_test.py` / `bebop_script.py`, wait-time
computation of `_record_notes_at_position` in `bebop_controller.py`).

MIDI symbols, pitches and velocities are `ℕ`; beat lengths, positions and
tempi are `ℚ` (the Python code uses floats, but the properties below concern
values quantized to one decimal digit, where rational arithmetic agrees with
the code).
-/

/-! # Definitions (shallow embedding of the source) -/

/-- A decoded note tuple `(note, velocity, length, position)` as appended to
`midi_notes_array` by `OnMidiMsg` in `device_test.py`. -/
structure NoteEvent where
  note : ℕ
  velocity : ℕ
  length : ℚ
  position : ℚ
deriving DecidableEq, Repr

/-- The module-level mutable receiver state of `device_test.py`:
`receiving_mode`, `note_count`, `values_received`, `midi_data`,
`midi_notes_array`. -/
structure RecvState where
  receiving_mode : Bool
  note_count : ℕ
  values_received : ℕ
  midi_data : List ℕ
  midi_notes_array : List NoteEvent
deriving DecidableEq, Repr

/-- Initial values of the module-level globals in `device_test.py`. -/
def initState : RecvState :=
  { receiving_mode := false, note_count := 0, values_received := 0,
    midi_data := [], midi_notes_array := [] }

/-- `device_test.py` lines 88-99: decode the last complete 6-tuple of
`midi_data` (index `i = len(midi_data) - 6`) into a note event, with
`length = length_whole + length_decimal / 10` and likewise for position. -/
def decodeLast6 (md : List ℕ) : NoteEvent :=
  match md.drop (md.length - 6) with
  | n :: v :: lw :: ld :: pw :: pd :: _ =>
      { note := n, velocity := v,
        length := (lw : ℚ) + (ld : ℚ) / 10,
        position := (pw : ℚ) + (pd : ℚ) / 10 }
  | _ => { note := 0, velocity := 0, length := 0, position := 0 }

/-- One symbol of the receiver state machine: `OnMidiMsg` in
`device_test.py` (note-on path, `event.data1 = note_value`).  Returns the
updated global state together with the batch passed to `record_notes_batch`,
when that call happens on this symbol. -/
def OnMidiMsg (s : RecvState) (note_value : ℕ) : RecvState × Option (List NoteEvent) :=
  if note_value = 0 ∧ s.receiving_mode = false then
    ({ receiving_mode := true, note_count := 0, values_received := 0,
       midi_data := [], midi_notes_array := [] }, none)
  else if s.receiving_mode = false then
    (s, none)
  else if s.note_count = 0 then
    ({ s with note_count := note_value }, none)
  else if note_value = 127 then
    ({ s with receiving_mode := false },
     if s.midi_notes_array.isEmpty then none else some s.midi_notes_array)
  else
    let md := s.midi_data ++ [note_value]
    let s1 := { s with midi_data := md, values_received := s.values_received + 1 }
    if 6 ≤ md.length ∧ md.length % 6 = 0 then
      let arr := s.midi_notes_array ++ [decodeLast6 md]
      let s2 := { s1 with midi_notes_array := arr }
      if s.note_count ≤ arr.length then
        ({ s2 with receiving_mode := false }, some arr)
      else
        (s2, none)
    else
      (s1, none)

/-- Feed a list of symbols one at a time from a given state, collecting every
batch handed to `record_notes_batch` along the way. -/
def runFrom (s : RecvState) : List ℕ → RecvState × List (List NoteEvent)
  | [] => (s, [])
  | v :: rest =>
      let p := OnMidiMsg s v
      let q := runFrom p.1 rest
      (q.1, p.2.toList ++ q.2)

/-- Feed a list of symbols to a freshly loaded receiver. -/
def run (vs : List ℕ) : RecvState × List (List NoteEvent) := runFrom initState vs

/-- Python 3 `round` on a rational: round half to even. -/
def pyRound (q : ℚ) : ℤ :=
  let f := ⌊q⌋
  if q - f < 1/2 then f
  else if 1/2 < q - f then f + 1
  else if 2 ∣ f then f else f + 1

/-- Python `int()` on a float: truncation toward zero. -/
def pyInt (q : ℚ) : ℤ := if 0 ≤ q then ⌊q⌋ else -⌊-q⌋

/-- `trigger.py` lines 197-218: the six MIDI values appended to `midi_data`
for one parsed note.  `send_melody`'s parsing (lines 183-186) guarantees
`note`, `velocity` are already clamped to `[0,127]` and `length`, `position`
are nonnegative, so the `Int.toNat` coercions below are exact. -/
def noteMidiBytes (n : NoteEvent) : List ℕ :=
  let length_whole : ℤ := min 127 (pyInt n.length)
  let length_decimal : ℤ := pyRound ((n.length - length_whole) * 10) % 10
  let position_whole : ℤ := min 127 (pyInt n.position)
  let position_decimal : ℤ := pyRound ((n.position - position_whole) * 10) % 10
  [n.note, n.velocity, length_whole.toNat, length_decimal.toNat,
   position_whole.toNat, position_decimal.toNat]

/-- `trigger.py` lines 195-218: the full `midi_data` array (6 values per
note, over ALL parsed notes). -/
def send_melody_data (notes : List NoteEvent) : List ℕ :=
  notes.flatMap noteMidiBytes

/-- `trigger.py` lines 220-237: the complete symbol stream sent by
`send_melody`: start sentinel 0, then `min(127, len(notes))`, then every
value of `midi_data`, then 127.  When no valid notes were parsed the
function returns early and sends nothing. -/
def send_melody_stream (notes : List NoteEvent) : List ℕ :=
  if notes.isEmpty then []
  else 0 :: min 127 notes.length :: (send_melody_data notes ++ [127])

/-- A wire-valid record tuple: six symbols, none of them the END sentinel. -/
def ValidTuples (ts : List (List ℕ)) : Prop :=
  ∀ t ∈ ts, t.length = 6 ∧ ∀ v ∈ t, v ≠ 127

instance : DecidablePred ValidTuples := fun ts => by
  unfold ValidTuples; infer_instance

/-- The collecting state reached after buffering and decoding the tuples
`ts` on top of state `s`, once the expected count has been reached. -/
def collectFinal (s : RecvState) (ts : List (List ℕ)) : RecvState :=
  { receiving_mode := false, note_count := s.note_count,
    values_received := s.values_received + 6 * ts.length,
    midi_data := s.midi_data ++ ts.flatMap id,
    midi_notes_array := s.midi_notes_array ++ ts.map decodeLast6 }

/-- The tuples used by the C1 witness. -/
def tsC1 : List (List ℕ) := [[60, 100, 1, 0, 0, 0], [62, 90, 1, 5, 0, 0]]

/-- The 200-record batch used against C2. -/
def batch200 : List NoteEvent := List.replicate 200 ⟨60, 100, 1, 0⟩

/-- Receiver-state invariant: the END sentinel never sits in the symbol
buffer, and no decoded note carries 127 in its note or velocity slot. -/
def NoEnd (s : RecvState) : Prop :=
  127 ∉ s.midi_data ∧ ∀ n ∈ s.midi_notes_array, n.note ≠ 127 ∧ n.velocity ≠ 127

/-- A note the wire format can carry exactly: pitch/velocity in [1,126],
length and position nonnegative multiples of 0.1 with whole part at most
126 (i.e. tenths-count at most 1269). -/
def WireSafe (n : NoteEvent) : Prop :=
  1 ≤ n.note ∧ n.note ≤ 126 ∧ 1 ≤ n.velocity ∧ n.velocity ≤ 126 ∧
  (∃ k : ℕ, k ≤ 1269 ∧ n.length = (k : ℚ) / 10) ∧
  (∃ j : ℕ, j ≤ 1269 ∧ n.position = (j : ℚ) / 10)

/-- The single record used against the original C3 claim: length 127.0 has
whole part 127, which the claim's hypotheses allow. -/
def c3Note : NoteEvent := ⟨60, 100, 127, 0⟩

/-- Python `sorted(notes_array, key=lambda x: x[3])`: a stable ascending sort
by start position (insertion sort is stable, like Python's sort). -/
def sorted_notes (notes_array : List NoteEvent) : List NoteEvent :=
  notes_array.insertionSort (fun a b => a.position ≤ b.position)

/-- The keys of `position_groups` visited in ascending order:
`positions = sorted(position_groups.keys())`. -/
def group_positions (notes_array : List NoteEvent) : List ℚ :=
  (((sorted_notes notes_array).map (fun n => n.position)).dedup).insertionSort (· ≤ ·)

/-- `position_groups[position]`: the notes of the batch sharing one start
position, in stable-sorted order. -/
def position_group (notes_array : List NoteEvent) (p : ℚ) : List NoteEvent :=
  (sorted_notes notes_array).filter (fun n => n.position = p)

/-- The spec's C8 example batch: positions [2.0, 0.5, 2.0, 1.0]. -/
def ex8 : List NoteEvent :=
  [⟨60, 100, 1, 2⟩, ⟨61, 100, 1, 1/2⟩, ⟨62, 100, 1, 2⟩, ⟨63, 100, 1, 1⟩]

/-- A call made against the FL Studio host API. -/
inductive Cmd where
  | stop : Cmd
  | start : Cmd
  | record : Cmd
  | setSongPos (ticks : ℤ) : Cmd
  | noteOn (channel note velocity : ℕ) : Cmd
  | sleep (seconds : ℚ) : Cmd
deriving DecidableEq, Repr

/-- Transport state of the host (playing / recording flags). -/
structure Transport where
  playing : Bool
  recording : Bool
deriving DecidableEq, Repr

/-- Static host configuration: query answers and which transport calls
raise.  `mixerTempo = none` models `import mixer` / `getCurrentTempo`
raising `ImportError`/`AttributeError`; the `..Fails` flags model a raising
transport call (an uncaught Python exception). -/
structure Host where
  selectedChannel : ℕ
  recPPQ : ℕ
  mixerTempo : Option ℚ
  stopFails : Bool
  startFails : Bool
  recordFails : Bool
deriving DecidableEq, Repr

/-- `transport.stop()`: an uncaught exception aborts the caller. -/
def transport_stop (h : Host) (t : Transport) : Except Unit (Transport × List Cmd) :=
  if h.stopFails then .error () else .ok ({ t with playing := false }, [Cmd.stop])

/-- `transport.start()`. -/
def transport_start (h : Host) (t : Transport) : Except Unit (Transport × List Cmd) :=
  if h.startFails then .error () else .ok ({ t with playing := true }, [Cmd.start])

/-- `transport.record()`: toggles recording mode. -/
def transport_record (h : Host) (t : Transport) : Except Unit (Transport × List Cmd) :=
  if h.recordFails then .error () else .ok ({ t with recording := !t.recording }, [Cmd.record])

/-- `device_test.py` lines 183-189: the tempo query wrapped in
`try/except (ImportError, AttributeError)` with fallback 120 BPM;
`mixer.getCurrentTempo()` reports thousandths of a BPM. -/
def device_tempo (h : Host) : ℚ :=
  match h.mixerTempo with
  | some t => t / 1000
  | none => 120

/-- Python `max(note[2] for note in notes_at_position)` (groups produced by
the scheduler are never empty, so the 0 default is never read). -/
def max_length : List NoteEvent → ℚ
  | [] => 0
  | n :: ns => ns.foldl (fun m x => max m x.length) n.length

/-- `device_test.py` lines 148-213: the body of the per-position-group loop
of `record_notes_batch`.  Only the tempo query is protected by a
`try/except`; every transport call propagates its failure. -/
def device_record_group (h : Host) (t0 : Transport) (position : ℚ)
    (notes_at_position : List NoteEvent) : Except Unit (Transport × List Cmd) := do
  let s1 ← if t0.playing then transport_stop h t0 else .ok (t0, [])
  let channel := h.selectedChannel
  let position_ticks : ℤ := pyInt (position * (h.recPPQ : ℚ))
  let c2 := [Cmd.setSongPos position_ticks]
  let s3 ← if s1.1.recording then .ok (s1.1, []) else transport_record h s1.1
  let s4 ← transport_start h s3.1
  let c5 := notes_at_position.map (fun n => Cmd.noteOn channel n.note n.velocity)
  let seconds_to_wait := max_length notes_at_position * 60 / device_tempo h
  let c6 := [Cmd.sleep seconds_to_wait]
  let c7 := notes_at_position.map (fun n => Cmd.noteOn channel n.note 0)
  let s8 ← transport_stop h s4.1
  let s9 ← if s8.1.recording then transport_record h s8.1 else .ok (s8.1, [])
  .ok (s9.1, s1.2 ++ c2 ++ s3.2 ++ s4.2 ++ c5 ++ c6 ++ c7 ++ s8.2 ++ s9.2 ++
    [Cmd.sleep (1/5)])

/-- `device_test.py` lines 128-218: `record_notes_batch` — group the batch
by position, process the groups in ascending order (aborting on the first
uncaught host failure), then return the playhead to 0. -/
def device_record_notes_batch (h : Host) (t0 : Transport)
    (notes_array : List NoteEvent) : Except Unit (Transport × List Cmd) := do
  let r ← (group_positions notes_array).foldlM
    (fun acc p => do
      let g ← device_record_group h acc.1 p (position_group notes_array p)
      .ok (g.1, acc.2 ++ g.2))
    (t0, ([] : List Cmd))
  .ok (r.1, r.2 ++ [Cmd.setSongPos 0])

/-- `bebop_controller.py` lines 617-620: tempo with settings fallback
(`settings["tempo"]`, default 160 at line 45). -/
def controller_tempo (settings_tempo : ℚ) (mixerTempo : Option ℚ) : ℚ :=
  match mixerTempo with
  | some t => t / 1000
  | none => settings_tempo

/-- `bebop_controller.py` lines 622-628: the wait-time computation of
`_record_notes_at_position`, including the `MAX_WAIT_TIME = 30` clamp. -/
def controller_wait_seconds (settings_tempo : ℚ) (mixerTempo : Option ℚ)
    (maxLen : ℚ) : ℚ :=
  let seconds_to_wait := maxLen * 60 / controller_tempo settings_tempo mixerTempo
  if seconds_to_wait > 30 then 30 else seconds_to_wait

/-- Host used by the C6 counterexample: mixer reports 60000 (60 BPM), no
call fails. -/
def hC6 : Host := ⟨0, 96, some 60000, false, false, false⟩

/-- Host used by the C7 counterexample: the mixer works (120 BPM) but
`transport.start()` raises. -/
def hC7fail : Host := ⟨0, 96, some 120000, false, true, false⟩

/-- Host used by the C7 witness: the tempo query fails, nothing else does. -/
def hC7none : Host := ⟨0, 96, none, false, false, false⟩

/-! # Theorems -/

example : (run [0, 1, 10, 80, 127]).2 = [] := by decide
example : (run [0, 1, 10, 80, 127]).1.receiving_mode = false := by decide
example : (run [0, 0, 127]).1.receiving_mode = true := by decide
example : (run [0, 0, 127]).1.note_count = 127 := by decide
example : (run [0, 1, 60, 100, 0, 126, 0, 0]).2 =
    [[{ note := 60, velocity := 100, length := 63/5, position := 0 }]] := by
  simp [run, runFrom, OnMidiMsg, decodeLast6, initState]
  norm_num
example : (run [0, 2, 5, 0]).1.midi_data = [5, 0] := by decide

/-- Each note contributes exactly 6 symbols to `midi_data`. -/
theorem noteMidiBytes_length (n : NoteEvent) : (noteMidiBytes n).length = 6 := rfl

/-- `midi_data` holds `6 * len(notes)` values: `send_melody` never truncates
the data section. -/
theorem send_melody_data_length (notes : List NoteEvent) :
    (send_melody_data notes).length = 6 * notes.length := by
  induction notes with
  | nil => rfl
  | cons n ns ih =>
      simp only [send_melody_data, List.flatMap_cons, List.length_append,
        noteMidiBytes_length, List.length_cons] at *
      omega

example : send_melody_stream [⟨60, 100, 1, 0⟩] =
    [0, 1, 60, 100, 1, 0, 0, 0, 127] := by
  simp [send_melody_stream, send_melody_data, noteMidiBytes, pyRound, pyInt]
example : (send_melody_data (List.replicate 200 ⟨60, 100, 1, 0⟩)).length = 1200 := by
  rw [send_melody_data_length, List.length_replicate]

theorem runFrom_cons (s : RecvState) (v : ℕ) (vs : List ℕ) :
    runFrom s (v :: vs) =
      ((runFrom (OnMidiMsg s v).1 vs).1,
       (OnMidiMsg s v).2.toList ++ (runFrom (OnMidiMsg s v).1 vs).2) := rfl

/-- Decoding the last 6 values of `buf ++ t` with `t` of length 6 reads
exactly `t`. -/
theorem decodeLast6_append (buf t : List ℕ) (ht : t.length = 6) :
    decodeLast6 (buf ++ t) = decodeLast6 t := by
  unfold decodeLast6
  rw [List.length_append, ht, Nat.add_sub_cancel, List.drop_left]
  norm_num

/-- A data symbol that does not yet complete a 6-tuple is just appended. -/
theorem OnMidiMsg_append (s : RecvState) (v : ℕ)
    (hrec : s.receiving_mode = true) (hcount : s.note_count ≠ 0) (hv : v ≠ 127)
    (hmod : (s.midi_data.length + 1) % 6 ≠ 0) :
    OnMidiMsg s v =
      ({ s with midi_data := s.midi_data ++ [v],
                values_received := s.values_received + 1 }, none) := by
  simp [OnMidiMsg, hrec, hcount, hv, hmod]

/-- A data symbol that completes a 6-tuple decodes it, appends the note and
completes the batch exactly when the expected count is reached. -/
theorem OnMidiMsg_complete (s : RecvState) (v : ℕ)
    (hrec : s.receiving_mode = true) (hcount : s.note_count ≠ 0) (hv : v ≠ 127)
    (hmod : (s.midi_data.length + 1) % 6 = 0) :
    OnMidiMsg s v =
      (let md := s.midi_data ++ [v]
       let arr := s.midi_notes_array ++ [decodeLast6 md]
       if s.note_count ≤ arr.length then
         ({ receiving_mode := false, note_count := s.note_count,
            values_received := s.values_received + 1,
            midi_data := md, midi_notes_array := arr }, some arr)
       else
         ({ s with midi_data := md, values_received := s.values_received + 1,
                   midi_notes_array := arr }, none)) := by
  have h6 : 6 ≤ s.midi_data.length + 1 := by omega
  simp only [OnMidiMsg, hrec, hcount, hv, hmod, List.length_append, List.length_cons,
    List.length_nil, Nat.zero_add, and_true, and_false, if_false, if_true,
    Bool.true_eq_false, and_self, ite_false]
  split
  · split
    · rfl
    · rfl
  · omega

/-- One data symbol that does not complete a tuple, at the `runFrom` level. -/
theorem runFrom_append_one (s : RecvState) (v : ℕ) {vs : List ℕ}
    (hrec : s.receiving_mode = true) (hcount : s.note_count ≠ 0) (hv : v ≠ 127)
    (hmod : (s.midi_data.length + 1) % 6 ≠ 0) :
    runFrom s (v :: vs) =
      runFrom { s with midi_data := s.midi_data ++ [v],
                       values_received := s.values_received + 1 } vs := by
  rw [runFrom_cons, OnMidiMsg_append s v hrec hcount hv hmod]
  simp

/-- Feeding one complete 6-symbol data tuple from a between-tuples collecting
state: the tuple is buffered, decoded, and the batch completes exactly when
the expected count is reached. -/
theorem runFrom_tuple (s : RecvState) (t rest : List ℕ)
    (hrec : s.receiving_mode = true) (hcount : s.note_count ≠ 0)
    (hlen : s.midi_data.length % 6 = 0)
    (ht : t.length = 6) (ht127 : ∀ v ∈ t, v ≠ 127) :
    runFrom s (t ++ rest) =
      (let arr := s.midi_notes_array ++ [decodeLast6 t]
       let s6 : RecvState :=
         { receiving_mode := if s.note_count ≤ arr.length then false else true,
           note_count := s.note_count,
           values_received := s.values_received + 6,
           midi_data := s.midi_data ++ t,
           midi_notes_array := arr }
       ((runFrom s6 rest).1,
        (if s.note_count ≤ arr.length then [arr] else []) ++ (runFrom s6 rest).2)) := by
  rcases t with _ | ⟨a, _ | ⟨b, _ | ⟨c, _ | ⟨d, _ | ⟨e, _ | ⟨f, tl⟩⟩⟩⟩⟩⟩ <;>
    simp only [List.length_cons, List.length_nil] at ht <;> try omega
  have htl : tl = [] := List.length_eq_zero.mp (by omega)
  subst htl
  rw [show (a :: b :: c :: d :: e :: f :: ([] : List ℕ)) ++ rest
      = a :: b :: c :: d :: e :: f :: rest from rfl]
  have ha : a ≠ 127 := ht127 a (by simp)
  have hb : b ≠ 127 := ht127 b (by simp)
  have hc : c ≠ 127 := ht127 c (by simp)
  have hd : d ≠ 127 := ht127 d (by simp)
  have he : e ≠ 127 := ht127 e (by simp)
  have hf : f ≠ 127 := ht127 f (by simp)
  rw [runFrom_append_one s a hrec hcount ha (by omega)]
  rw [runFrom_append_one _ b (by exact hrec) (by exact hcount) hb
    (by simp only [List.length_append, List.length_cons, List.length_nil]; omega)]
  rw [runFrom_append_one _ c (by exact hrec) (by exact hcount) hc
    (by simp only [List.length_append, List.length_cons, List.length_nil]; omega)]
  rw [runFrom_append_one _ d (by exact hrec) (by exact hcount) hd
    (by simp only [List.length_append, List.length_cons, List.length_nil]; omega)]
  rw [runFrom_append_one _ e (by exact hrec) (by exact hcount) he
    (by simp only [List.length_append, List.length_cons, List.length_nil]; omega)]
  rw [runFrom_cons, OnMidiMsg_complete _ f (by exact hrec) (by exact hcount) hf
    (by simp only [List.length_append, List.length_cons, List.length_nil]; omega)]
  have hdec : decodeLast6 (((((s.midi_data ++ [a]) ++ [b]) ++ [c]) ++ [d]) ++ [e] ++ [f])
      = decodeLast6 [a, b, c, d, e, f] := by
    rw [List.append_assoc _ [e] [f]]
    rw [show ([e] ++ [f] : List ℕ) = [e, f] from rfl]
    rw [List.append_assoc _ [d] [e, f],
      show ([d] ++ [e, f] : List ℕ) = [d, e, f] from rfl]
    rw [List.append_assoc _ [c] [d, e, f],
      show ([c] ++ [d, e, f] : List ℕ) = [c, d, e, f] from rfl]
    rw [List.append_assoc _ [b] [c, d, e, f],
      show ([b] ++ [c, d, e, f] : List ℕ) = [b, c, d, e, f] from rfl]
    rw [List.append_assoc _ [a] [b, c, d, e, f],
      show ([a] ++ [b, c, d, e, f] : List ℕ) = [a, b, c, d, e, f] from rfl]
    exact decodeLast6_append s.midi_data [a, b, c, d, e, f] rfl
  simp only [hdec]
  by_cases hfin : s.note_count ≤ (s.midi_notes_array ++ [decodeLast6 [a, b, c, d, e, f]]).length
  · simp only [hfin, if_true, ite_true]
    simp [List.append_assoc, Nat.add_assoc]
  · simp only [hfin, if_false, ite_false]
    simp [List.append_assoc, Nat.add_assoc, hrec]

/-- Feeding complete tuples while strictly below the expected count buffers
and decodes them all, with no batch completion. -/
theorem runFrom_collect_below (ts : List (List ℕ)) (s : RecvState) (rest : List ℕ)
    (hrec : s.receiving_mode = true) (hcount : s.note_count ≠ 0)
    (hlen : s.midi_data.length % 6 = 0) (hts : ValidTuples ts)
    (hbelow : s.midi_notes_array.length + ts.length < s.note_count) :
    runFrom s (ts.flatMap id ++ rest) =
      runFrom { s with midi_data := s.midi_data ++ ts.flatMap id,
                       values_received := s.values_received + 6 * ts.length,
                       midi_notes_array := s.midi_notes_array ++ ts.map decodeLast6 } rest := by
  induction ts generalizing s with
  | nil => simp
  | cons t ts ih =>
      obtain ⟨ht6, ht127⟩ := hts t (by simp)
      rw [List.flatMap_cons]
      simp only [id_eq]
      rw [List.append_assoc, runFrom_tuple s t _ hrec hcount hlen ht6 ht127]
      have hnc : ¬ s.note_count ≤ (s.midi_notes_array ++ [decodeLast6 t]).length := by
        simp only [List.length_append, List.length_cons, List.length_nil,
          List.length_cons] at hbelow ⊢
        omega
      simp only [hnc, if_false, ite_false, List.nil_append]
      rw [ih _ (by simp) (by exact hcount)
        (by simp only [List.length_append, ht6]; omega)
        (fun u hu => hts u (by simp [hu]))
        (by simp only [List.length_append, List.length_cons, List.length_nil,
              List.length_cons] at hbelow ⊢; omega)]
      refine congrArg (fun st => runFrom st rest) ?_
      simp only [RecvState.mk.injEq, List.append_assoc, List.map_cons,
        List.flatMap_cons, List.length_cons, List.singleton_append, id_eq,
        hrec, true_and, and_true]
      omega

/-- In Idle (receiving_mode off), a 0 symbol resets every receiver global and
enters receiving mode. -/
theorem OnMidiMsg_start (s : RecvState) (h : s.receiving_mode = false) :
    OnMidiMsg s 0 =
      ({ receiving_mode := true, note_count := 0, values_received := 0,
         midi_data := [], midi_notes_array := [] }, none) := by
  simp [OnMidiMsg, h]

/-- In Idle, any nonzero symbol is ignored. -/
theorem OnMidiMsg_idle (s : RecvState) (h : s.receiving_mode = false)
    (v : ℕ) (hv : v ≠ 0) : OnMidiMsg s v = (s, none) := by
  simp [OnMidiMsg, h, hv]

/-- While awaiting the count, any symbol becomes `note_count`. -/
theorem OnMidiMsg_count (s : RecvState) (h : s.receiving_mode = true)
    (h0 : s.note_count = 0) (v : ℕ) :
    OnMidiMsg s v = ({ s with note_count := v }, none) := by
  simp [OnMidiMsg, h, h0]

/-- While collecting, the 127 symbol ends the session; the batch is handed
over only when at least one note was decoded. -/
theorem OnMidiMsg_end (s : RecvState) (h : s.receiving_mode = true)
    (hc : s.note_count ≠ 0) :
    OnMidiMsg s 127 =
      ({ s with receiving_mode := false },
       if s.midi_notes_array.isEmpty then none else some s.midi_notes_array) := by
  simp [OnMidiMsg, h, hc]

/-- Feeding exactly the number of tuples still expected completes the batch
on the last symbol of the last tuple and leaves the receiver idle. -/
theorem runFrom_collect_exact (ts : List (List ℕ)) (s : RecvState) (rest : List ℕ)
    (hrec : s.receiving_mode = true) (hcount : s.note_count ≠ 0)
    (hlen : s.midi_data.length % 6 = 0) (hts : ValidTuples ts) (hne : ts ≠ [])
    (hexact : s.midi_notes_array.length + ts.length = s.note_count) :
    runFrom s (ts.flatMap id ++ rest) =
      ((runFrom (collectFinal s ts) rest).1,
       (s.midi_notes_array ++ ts.map decodeLast6) :: (runFrom (collectFinal s ts) rest).2) := by
  induction ts generalizing s with
  | nil => exact absurd rfl hne
  | cons t ts ih =>
      obtain ⟨ht6, ht127⟩ := hts t (by simp)
      rw [List.flatMap_cons]
      simp only [id_eq]
      rw [List.append_assoc, runFrom_tuple s t _ hrec hcount hlen ht6 ht127]
      by_cases hts_nil : ts = []
      · subst hts_nil
        have hyes : s.note_count ≤ (s.midi_notes_array ++ [decodeLast6 t]).length := by
          simp only [List.length_cons, List.length_nil] at hexact
          simp only [List.length_append, List.length_cons, List.length_nil]
          omega
        simp only [hyes, if_true, ite_true]
        simp only [List.flatMap_cons, List.flatMap_nil, List.append_nil,
          List.map_cons, List.map_nil]
        have hstate : ({ receiving_mode := false, note_count := s.note_count,
                         values_received := s.values_received + 6,
                         midi_data := s.midi_data ++ t,
                         midi_notes_array := s.midi_notes_array ++ [decodeLast6 t] } : RecvState)
            = collectFinal s [t] := by
          simp [collectFinal]
        rw [hstate]
        simp
      · have hnc : ¬ s.note_count ≤ (s.midi_notes_array ++ [decodeLast6 t]).length := by
          have : 1 ≤ ts.length := by
            cases ts with
            | nil => exact absurd rfl hts_nil
            | cons u us => simp
          simp only [List.length_cons] at hexact
          simp only [List.length_append, List.length_cons, List.length_nil]
          omega
        simp only [hnc, if_false, ite_false, List.nil_append]
        rw [ih _ (by simp) (by exact hcount)
          (by simp only [List.length_append, ht6]; omega)
          (fun u hu => hts u (by simp [hu])) hts_nil
          (by simp only [List.length_append, List.length_cons, List.length_nil,
                List.length_cons] at hexact ⊢; omega)]
        have hstate : collectFinal
            ({ receiving_mode := true, note_count := s.note_count,
               values_received := s.values_received + 6,
               midi_data := s.midi_data ++ t,
               midi_notes_array := s.midi_notes_array ++ [decodeLast6 t] } : RecvState) ts
            = collectFinal s (t :: ts) := by
          simp only [collectFinal, RecvState.mk.injEq, List.append_assoc,
            List.map_cons, List.flatMap_cons, List.length_cons,
            List.singleton_append, id_eq, true_and, and_true]
          omega
        rw [hstate]
        simp [List.append_assoc, List.singleton_append, List.map_cons]

/-- **C1** (amended): for COUNT in [1,127], a fresh receiver fed
`START(0), COUNT, <COUNT valid 6-tuples>, END(127)` hands
`record_notes_batch` exactly one batch of exactly COUNT decoded records
(termination fires by reaching the expected count on the last data symbol)
and ends back in Idle; the trailing END symbol is ignored.  The COUNT = 0
case of the original claim fails: see the counterexample. -/
theorem C1_positive_count_session (c : ℕ) (ts : List (List ℕ))
    (hc1 : 1 ≤ c) (hc127 : c ≤ 127) (hlen : ts.length = c) (hts : ValidTuples ts) :
    run (0 :: c :: (ts.flatMap id ++ [127])) =
      ({ receiving_mode := false, note_count := c, values_received := 6 * c,
         midi_data := ts.flatMap id, midi_notes_array := ts.map decodeLast6 },
       [ts.map decodeLast6]) ∧
    (ts.map decodeLast6).length = c := by
  have hne : ts ≠ [] := by
    intro h
    rw [h] at hlen
    simp at hlen
    omega
  constructor
  · unfold run
    rw [runFrom_cons, OnMidiMsg_start initState rfl]
    simp only [Option.toList_none, List.nil_append, Prod.mk.eta]
    rw [runFrom_cons, OnMidiMsg_count _ rfl rfl c]
    simp only [Option.toList_none, List.nil_append, Prod.mk.eta]
    rw [runFrom_collect_exact ts _ [127] rfl (by show c ≠ 0; omega)
      (by show ([] : List ℕ).length % 6 = 0; rfl) hts hne
      (by show ([] : List NoteEvent).length + ts.length = c; simpa using hlen)]
    have hend : runFrom (collectFinal
        ({ receiving_mode := true, note_count := c, values_received := 0,
           midi_data := [], midi_notes_array := [] } : RecvState) ts) [127] =
        (collectFinal
          ({ receiving_mode := true, note_count := c, values_received := 0,
             midi_data := [], midi_notes_array := [] } : RecvState) ts, []) := by
      rw [runFrom_cons, OnMidiMsg_idle _ rfl 127 (by decide)]
      simp [runFrom]
    rw [hend]
    simp [collectFinal, hlen]
  · simp [hlen]

/-- **C1** counterexample: with COUNT = 0 the receiver does NOT emit an empty
batch and return to Idle; the count symbol 0 leaves it still awaiting a
count, and the subsequent END symbol is itself consumed as the new count
(127), so after `START, 0, END` the receiver is still in receiving mode with
`note_count = 127` and no batch was ever produced. -/
theorem C1_count_zero_counterexample :
    (run [0, 0, 127]).1.receiving_mode = true ∧
    (run [0, 0, 127]).1.note_count = 127 ∧
    (run [0, 0, 127]).2 = [] := by decide

/-- Witness for `C1_positive_count_session` at COUNT = 2. -/
theorem C1_witness :
    (1 ≤ 2 ∧ 2 ≤ 127 ∧ tsC1.length = 2 ∧ ValidTuples tsC1) ∧
    (run (0 :: 2 :: (tsC1.flatMap id ++ [127])) =
      ({ receiving_mode := false, note_count := 2, values_received := 6 * 2,
         midi_data := tsC1.flatMap id, midi_notes_array := tsC1.map decodeLast6 },
       [tsC1.map decodeLast6]) ∧
     (tsC1.map decodeLast6).length = 2) :=
  ⟨⟨by decide, by decide, by decide, by decide⟩,
   C1_positive_count_session 2 tsC1 (by decide) (by decide) (by decide) (by decide)⟩

/-- **C2** counterexample: encoding a 200-record batch emits COUNT = 127 but
the data section still holds all 200 six-symbol tuples (1200 symbols, not
6 * 127 = 762): `send_melody` clamps only the COUNT symbol and never
truncates `midi_data`. -/
theorem C2_no_data_truncation_counterexample :
    send_melody_stream batch200 =
      0 :: 127 :: (send_melody_data batch200 ++ [127]) ∧
    (send_melody_data batch200).length = 1200 ∧ (1200 : ℕ) ≠ 6 * 127 := by
  refine ⟨?_, ?_, by decide⟩
  · rw [send_melody_stream]
    norm_num [batch200]
  · rw [batch200, send_melody_data_length, List.length_replicate]

/-- **C2** (amended): for every nonempty input batch the emitted stream is
`START(0), min(127, n), <all 6 * n data symbols>, END(127)`: the COUNT symbol
is clamped to 127 but the record tuples are not truncated at all. -/
theorem C2_count_clamped_data_complete (notes : List NoteEvent) (hne : notes ≠ []) :
    send_melody_stream notes =
      0 :: min 127 notes.length :: (send_melody_data notes ++ [127]) ∧
    (send_melody_data notes).length = 6 * notes.length := by
  constructor
  · rw [send_melody_stream, if_neg (by simpa using hne)]
  · exact send_melody_data_length notes

/-- Witness for `C2_count_clamped_data_complete` on a one-record batch. -/
theorem C2_witness :
    ([(⟨60, 100, 1, 0⟩ : NoteEvent)] ≠ []) ∧
    (send_melody_stream [(⟨60, 100, 1, 0⟩ : NoteEvent)] =
      0 :: min 127 [(⟨60, 100, 1, 0⟩ : NoteEvent)].length ::
        (send_melody_data [(⟨60, 100, 1, 0⟩ : NoteEvent)] ++ [127]) ∧
     (send_melody_data [(⟨60, 100, 1, 0⟩ : NoteEvent)]).length =
       6 * [(⟨60, 100, 1, 0⟩ : NoteEvent)].length) :=
  ⟨by simp, C2_count_clamped_data_complete [⟨60, 100, 1, 0⟩] (by simp)⟩

/-- **C9** (confirmed): the decoder computes `length = len_whole + len_dec/10`
and `position = pos_whole + pos_dec/10` for ANY values in those slots, with no
check that the decimal digit is at most 9; a 126 in the len_dec slot of an
otherwise-valid transfer yields a record whose length has fractional part
12.6 (63/5). -/
theorem C9_fractional_digit_unchecked :
    (∀ n v lw ld pw pd : ℕ,
        decodeLast6 [n, v, lw, ld, pw, pd] =
          { note := n, velocity := v,
            length := (lw : ℚ) + (ld : ℚ) / 10,
            position := (pw : ℚ) + (pd : ℚ) / 10 }) ∧
    (run [0, 1, 60, 100, 0, 126, 0, 0]).2 =
      [[{ note := 60, velocity := 100, length := 63/5, position := 0 }]] := by
  constructor
  · intro n v lw ld pw pd
    simp [decodeLast6]
  · simp [run, runFrom, OnMidiMsg, decodeLast6, initState]
    norm_num

/-- **C10** (confirmed): accepting the start sentinel in Idle clears the
symbol buffer, decoded-note array, received-value counter and expected count,
so the behaviour from any Idle state (with arbitrary junk left in the
globals) is identical to that of a freshly loaded receiver: no leftover
symbol or record can reach the new session's batch. -/
theorem C10_start_resets_state (s : RecvState) (h : s.receiving_mode = false)
    (rest : List ℕ) :
    runFrom s (0 :: rest) = runFrom initState (0 :: rest) := by
  rw [runFrom_cons, OnMidiMsg_start s h, runFrom_cons, OnMidiMsg_start initState rfl]

/-- Witness for `C10_start_resets_state`: a junk-filled Idle state behaves
like a fresh receiver once 0 arrives. -/
theorem C10_witness :
    (({ receiving_mode := false, note_count := 5, values_received := 3,
        midi_data := [9, 9],
        midi_notes_array := [⟨1, 2, 3, 4⟩] } : RecvState).receiving_mode = false) ∧
    runFrom { receiving_mode := false, note_count := 5, values_received := 3,
              midi_data := [9, 9], midi_notes_array := [⟨1, 2, 3, 4⟩] }
        (0 :: [1, 127]) =
      runFrom initState (0 :: [1, 127]) :=
  ⟨rfl, C10_start_resets_state _ rfl [1, 127]⟩

/-- Data symbols that do not complete a 6-tuple are buffered unchanged. -/
theorem runFrom_short_tail (p : List ℕ) (s : RecvState) (rest : List ℕ)
    (hrec : s.receiving_mode = true) (hcount : s.note_count ≠ 0)
    (hp127 : ∀ v ∈ p, v ≠ 127)
    (hshort : s.midi_data.length % 6 + p.length < 6) :
    runFrom s (p ++ rest) =
      runFrom { s with midi_data := s.midi_data ++ p,
                       values_received := s.values_received + p.length } rest := by
  induction p generalizing s with
  | nil => simp
  | cons v p ih =>
      rw [List.cons_append, runFrom_append_one s v hrec hcount (hp127 v (by simp))
        (by have := hshort; simp only [List.length_cons] at this; omega)]
      rw [ih _ (by exact hrec) (by exact hcount) (fun u hu => hp127 u (by simp [hu]))
        (by simp only [List.length_append, List.length_cons, List.length_nil]
            have := hshort
            simp only [List.length_cons] at this
            omega)]
      refine congrArg (fun st => runFrom st rest) ?_
      simp only [RecvState.mk.injEq, List.append_assoc, List.singleton_append,
        List.length_cons, true_and, and_true]
      omega

/-- With all tuples wire-valid, the data section length is a multiple of 6. -/
theorem flatMap_valid_length (ts : List (List ℕ)) (hts : ValidTuples ts) :
    (ts.flatMap id).length = 6 * ts.length := by
  induction ts with
  | nil => rfl
  | cons t ts ih =>
      obtain ⟨ht6, _⟩ := hts t (by simp)
      simp only [List.flatMap_cons, id_eq, List.length_append, List.length_cons,
        ht6, ih (fun u hu => hts u (by simp [hu]))]
      ring

/-- **C4** (amended): when the receiver is collecting and the END sentinel
arrives after some complete 6-tuples and an incomplete trailing partial
tuple, the partial tuple is silently discarded (never decoded) and the
receiver returns to Idle; `record_notes_batch` is handed exactly the records
decoded from the complete tuples — but only when at least one complete tuple
was decoded: with zero complete tuples `device_test.py` line 76
(`if midi_notes_array:`) skips the call, so no empty batch is emitted.  In
particular `START,1,10,80,END` produces no crash, no partial record and no
batch at all. -/
theorem C4_end_flushes_completed_drops_partial (c : ℕ) (ts : List (List ℕ))
    (p : List ℕ) (hc : c ≠ 0) (hts : ValidTuples ts) (hbelow : ts.length < c)
    (hp127 : ∀ v ∈ p, v ≠ 127) (hpshort : p.length < 6) :
    run (0 :: c :: (ts.flatMap id ++ (p ++ [127]))) =
      ({ receiving_mode := false, note_count := c,
         values_received := 6 * ts.length + p.length,
         midi_data := ts.flatMap id ++ p,
         midi_notes_array := ts.map decodeLast6 },
       if ts.isEmpty then [] else [ts.map decodeLast6]) := by
  unfold run
  rw [runFrom_cons, OnMidiMsg_start initState rfl]
  simp only [Option.toList_none, List.nil_append, Prod.mk.eta]
  rw [runFrom_cons, OnMidiMsg_count _ rfl rfl c]
  simp only [Option.toList_none, List.nil_append, Prod.mk.eta]
  rw [runFrom_collect_below ts _ (p ++ [127]) rfl (by show c ≠ 0; exact hc)
    (by show ([] : List ℕ).length % 6 = 0; rfl) hts
    (by show ([] : List NoteEvent).length + ts.length < c; simpa using hbelow)]
  rw [runFrom_short_tail p _ [127] (by rfl) (by show c ≠ 0; exact hc) hp127
    (by show (([] : List ℕ) ++ ts.flatMap id).length % 6 + p.length < 6
        rw [List.nil_append, flatMap_valid_length ts hts]
        omega)]
  rw [runFrom_cons, OnMidiMsg_end _ (by rfl) (by show c ≠ 0; exact hc)]
  have hmapE : (ts.map decodeLast6).isEmpty = ts.isEmpty := by cases ts <;> rfl
  simp only [runFrom, List.nil_append, Option.toList_none, Option.toList_some,
    apply_ite Option.toList, List.append_nil, Nat.zero_add, hmapE]

/-- **C4** counterexample: the original claim expects `START,1,10,80,END` to
yield a completed batch of 0 records; the code instead invokes no batch at
all (`record_notes_batch` is never called), which is observably different
from one call with an empty list. -/
theorem C4_no_empty_batch_counterexample :
    (run [0, 1, 10, 80, 127]).2 = [] ∧
    (run [0, 1, 10, 80, 127]).1.receiving_mode = false ∧
    ([] : List (List NoteEvent)) ≠ [[]] := by
  refine ⟨by decide, by decide, by decide⟩

/-- Witness for `C4_end_flushes_completed_drops_partial` on the spec's
`START,1,10,80,END` scenario (count 1, no complete tuple, partial [10, 80]). -/
theorem C4_witness :
    ((1 : ℕ) ≠ 0 ∧ ValidTuples [] ∧ ([] : List (List ℕ)).length < 1 ∧
     (∀ v ∈ [10, 80], v ≠ 127) ∧ ([10, 80] : List ℕ).length < 6) ∧
    run (0 :: 1 :: (([] : List (List ℕ)).flatMap id ++ ([10, 80] ++ [127]))) =
      ({ receiving_mode := false, note_count := 1,
         values_received := 6 * ([] : List (List ℕ)).length + ([10, 80] : List ℕ).length,
         midi_data := ([] : List (List ℕ)).flatMap id ++ [10, 80],
         midi_notes_array := ([] : List (List ℕ)).map decodeLast6 },
       if ([] : List (List ℕ)).isEmpty then [] else [([] : List (List ℕ)).map decodeLast6]) :=
  ⟨⟨by decide, by decide, by decide, by decide, by decide⟩,
   C4_end_flushes_completed_drops_partial 1 [] [10, 80] (by decide) (by decide)
     (by decide) (by decide) (by decide)⟩

/-- A 6-tuple decoded from a buffer free of 127 has no 127 note/velocity. -/
theorem decodeLast6_no_end (md : List ℕ) (h : 127 ∉ md) :
    (decodeLast6 md).note ≠ 127 ∧ (decodeLast6 md).velocity ≠ 127 := by
  unfold decodeLast6
  set t := md.drop (md.length - 6) with hdef
  have hmem : ∀ x ∈ t, x ≠ 127 := fun x hx he => h (he ▸ List.mem_of_mem_drop hx)
  clear_value t
  rcases t with _ | ⟨a, _ | ⟨b, _ | ⟨x3, _ | ⟨x4, _ | ⟨x5, _ | ⟨x6, l⟩⟩⟩⟩⟩⟩ <;>
    try simp
  exact ⟨hmem a (by simp), hmem b (by simp)⟩

/-- One step of the receiver preserves the `NoEnd` invariant, and any batch
emitted at that step contains no note decoded from a sentinel value. -/
theorem NoEnd_step (s : RecvState) (v : ℕ) (hs : NoEnd s) :
    NoEnd (OnMidiMsg s v).1 ∧
    ∀ b ∈ (OnMidiMsg s v).2.toList, ∀ n ∈ b, n.note ≠ 127 ∧ n.velocity ≠ 127 := by
  obtain ⟨hmd, harr⟩ := hs
  unfold OnMidiMsg
  dsimp only
  split_ifs with hA hB hC hD hE hF hG
  · exact ⟨⟨by simp, by simp⟩, by simp⟩
  · exact ⟨⟨hmd, harr⟩, by simp⟩
  · exact ⟨⟨hmd, harr⟩, by simp⟩
  · exact ⟨⟨hmd, harr⟩, by simp⟩
  · refine ⟨⟨hmd, harr⟩, ?_⟩
    intro b hb
    simp only [Option.toList_some, List.mem_singleton] at hb
    subst hb
    exact harr
  · have hmd' : 127 ∉ s.midi_data ++ [v] := by
      simp only [List.mem_append, List.mem_singleton]
      rintro (h | h)
      · exact hmd h
      · exact hD h.symm
    have hdec := decodeLast6_no_end (s.midi_data ++ [v]) hmd'
    have harr' : ∀ n ∈ s.midi_notes_array ++ [decodeLast6 (s.midi_data ++ [v])],
        n.note ≠ 127 ∧ n.velocity ≠ 127 := by
      intro n hn
      rcases List.mem_append.mp hn with h | h
      · exact harr n h
      · rw [List.mem_singleton.mp h]
        exact hdec
    refine ⟨⟨hmd', harr'⟩, ?_⟩
    intro b hb
    simp only [Option.toList_some, List.mem_singleton] at hb
    subst hb
    exact harr'
  · have hmd' : 127 ∉ s.midi_data ++ [v] := by
      simp only [List.mem_append, List.mem_singleton]
      rintro (h | h)
      · exact hmd h
      · exact hD h.symm
    have hdec := decodeLast6_no_end (s.midi_data ++ [v]) hmd'
    refine ⟨⟨hmd', ?_⟩, by simp⟩
    intro n hn
    rcases List.mem_append.mp hn with h | h
    · exact harr n h
    · rw [List.mem_singleton.mp h]
      exact hdec
  · have hmd' : 127 ∉ s.midi_data ++ [v] := by
      simp only [List.mem_append, List.mem_singleton]
      rintro (h | h)
      · exact hmd h
      · exact hD h.symm
    exact ⟨⟨hmd', harr⟩, by simp⟩

/-- The invariant holds along any run, and covers every emitted batch. -/
theorem NoEnd_runFrom (vs : List ℕ) (s : RecvState) (hs : NoEnd s) :
    NoEnd (runFrom s vs).1 ∧
    ∀ b ∈ (runFrom s vs).2, ∀ n ∈ b, n.note ≠ 127 ∧ n.velocity ≠ 127 := by
  induction vs generalizing s with
  | nil => exact ⟨hs, by simp [runFrom]⟩
  | cons v vs ih =>
      obtain ⟨h1, h2⟩ := NoEnd_step s v hs
      obtain ⟨h3, h4⟩ := ih (OnMidiMsg s v).1 h1
      rw [runFrom_cons]
      refine ⟨h3, ?_⟩
      intro b hb
      rcases List.mem_append.mp hb with h | h
      · exact h2 b h
      · exact h4 b h

/-- **C5** (amended): in every reachable receiver state the END value 127 is
always consumed as a control symbol (count or end-of-transfer): it is never
appended to the data buffer and never decoded into a record's note or
velocity slot.  The START value 0, however, is consumed as start-of-transfer
only in Idle; while collecting it IS appended to the buffer as ordinary data
(see the counterexample), so the original claim fails for 0. -/
theorem C5_end_sentinel_never_buffered (vs : List ℕ) :
    NoEnd (run vs).1 ∧
    ∀ b ∈ (run vs).2, ∀ n ∈ b, n.note ≠ 127 ∧ n.velocity ≠ 127 :=
  NoEnd_runFrom vs initState ⟨by simp [initState], by simp [initState]⟩

/-- **C5** counterexample: after `START, COUNT=2, 5, 0` the receiver is
collecting and the incoming 0 was appended to `midi_data` as a data symbol —
not consumed as a control symbol. -/
theorem C5_zero_buffered_counterexample :
    (run [0, 2, 5, 0]).1.midi_data = [5, 0] ∧
    (0 : ℕ) ∈ (run [0, 2, 5, 0]).1.midi_data ∧
    (run [0, 2, 5, 0]).1.receiving_mode = true := by decide

/-- Python `int()` of `k/10` is natural division by 10. -/
theorem pyInt_natCast_div_ten (k : ℕ) : pyInt ((k : ℚ) / 10) = ((k / 10 : ℕ) : ℤ) := by
  unfold pyInt
  rw [if_pos (by positivity)]
  refine (Int.floor_eq_iff).mpr ⟨?_, ?_⟩
  · rw [le_div_iff₀ (by norm_num : (0:ℚ) < 10)]
    exact_mod_cast Nat.div_mul_le_self k 10
  · rw [div_lt_iff₀ (by norm_num : (0:ℚ) < 10)]
    have h2 : k < (k / 10 + 1) * 10 := by omega
    exact_mod_cast h2

/-- Python `round` of a natural number is that number. -/
theorem pyRound_natCast (m : ℕ) : pyRound (m : ℚ) = m := by
  unfold pyRound
  rw [Int.floor_natCast]
  norm_num

/-- The whole-part symbol of a quantized value with at most 127 whole beats
(the `min 127` clamp is inactive up to tenths-count 1279). -/
theorem length_whole_eq (k : ℕ) (hk : k ≤ 1279) :
    min 127 (pyInt ((k : ℚ) / 10)) = ((k / 10 : ℕ) : ℤ) := by
  rw [pyInt_natCast_div_ten]
  exact min_eq_right (by exact_mod_cast (by omega : k / 10 ≤ 127))

/-- The decimal-digit symbol of a quantized value. -/
theorem length_decimal_eq (k : ℕ) :
    pyRound (((k : ℚ) / 10 - (((k / 10 : ℕ) : ℤ) : ℚ)) * 10) % 10 = ((k % 10 : ℕ) : ℤ) := by
  have h : (10 * (k / 10) + k % 10 : ℕ) = k := Nat.div_add_mod k 10
  have hq : (k : ℚ) = 10 * ((k / 10 : ℕ) : ℚ) + ((k % 10 : ℕ) : ℚ) := by
    exact_mod_cast h.symm
  have hfrac : ((k : ℚ) / 10 - (((k / 10 : ℕ) : ℤ) : ℚ)) * 10 = ((k % 10 : ℕ) : ℚ) := by
    rw [Int.cast_natCast, hq]
    ring
  rw [hfrac, pyRound_natCast]
  exact Int.emod_eq_of_lt (Int.natCast_nonneg _)
    (by exact_mod_cast Nat.mod_lt k (by norm_num))

/-- Encoding a quantized note yields exactly the six expected symbols. -/
theorem noteMidiBytes_quantized (p v k j : ℕ) (hk : k ≤ 1279) (hj : j ≤ 1279) :
    noteMidiBytes ⟨p, v, (k : ℚ) / 10, (j : ℚ) / 10⟩ =
      [p, v, k / 10, k % 10, j / 10, j % 10] := by
  unfold noteMidiBytes
  dsimp only
  rw [length_whole_eq k hk, length_whole_eq j hj, length_decimal_eq k,
    length_decimal_eq j]
  simp only [Int.toNat_natCast]

/-- `whole + decimal/10` reconstructs the quantized value. -/
theorem div_mod_reconstruct (k : ℕ) :
    ((k / 10 : ℕ) : ℚ) + ((k % 10 : ℕ) : ℚ) / 10 = (k : ℚ) / 10 := by
  have h : (10 * (k / 10) + k % 10 : ℕ) = k := Nat.div_add_mod k 10
  have hq : (k : ℚ) = 10 * ((k / 10 : ℕ) : ℚ) + ((k % 10 : ℕ) : ℚ) := by
    exact_mod_cast h.symm
  rw [hq]
  ring

/-- Decoding the encoding of a wire-safe note gives the note back exactly. -/
theorem decode_encode_wire_safe (n : NoteEvent) (h : WireSafe n) :
    decodeLast6 (noteMidiBytes n) = n := by
  obtain ⟨a, b, c, d⟩ := n
  obtain ⟨h1, h2, h3, h4, ⟨k, hk, hlen⟩, ⟨j, hj, hpos⟩⟩ := h
  dsimp only at hlen hpos
  subst hlen
  subst hpos
  rw [noteMidiBytes_quantized a b k j (by omega) (by omega)]
  have hdec : decodeLast6 [a, b, k / 10, k % 10, j / 10, j % 10] =
      ⟨a, b, ((k / 10 : ℕ) : ℚ) + ((k % 10 : ℕ) : ℚ) / 10,
       ((j / 10 : ℕ) : ℚ) + ((j % 10 : ℕ) : ℚ) / 10⟩ := rfl
  rw [hdec, div_mod_reconstruct k, div_mod_reconstruct j]

/-- The symbols of a wire-safe note form a valid data tuple. -/
theorem noteMidiBytes_wire_valid (n : NoteEvent) (h : WireSafe n) :
    (noteMidiBytes n).length = 6 ∧ ∀ v ∈ noteMidiBytes n, v ≠ 127 := by
  obtain ⟨a, b, c, d⟩ := n
  obtain ⟨h1, h2, h3, h4, ⟨k, hk, hlen⟩, ⟨j, hj, hpos⟩⟩ := h
  dsimp only at h1 h2 h3 h4 hlen hpos
  subst hlen
  subst hpos
  rw [noteMidiBytes_quantized a b k j (by omega) (by omega)]
  refine ⟨rfl, ?_⟩
  intro v hv
  simp only [List.mem_cons, List.not_mem_nil, or_false] at hv
  rcases hv with h | h | h | h | h | h <;> omega

/-- The data section of the stream is the concatenation of the per-note
6-tuples. -/
theorem send_melody_data_flatMap (notes : List NoteEvent) :
    send_melody_data notes = (notes.map noteMidiBytes).flatMap id := by
  unfold send_melody_data
  simp [List.flatMap_map]

/-- **C3** (amended): for every nonempty batch of at most 127 wire-safe
records — pitch and velocity in [1,126], length and position nonnegative
multiples of 0.1 whose whole part is at most 126 — feeding the encoder's
symbol stream to a fresh receiver reproduces the batch exactly: one
`record_notes_batch` call whose argument equals the original list, and the
receiver ends Idle.  The original claim allowed whole parts up to 127, which
fails: a whole-part symbol 127 is consumed as the END sentinel
(see the counterexample). -/
theorem C3_roundtrip (notes : List NoteEvent) (hne : notes ≠ [])
    (hlen : notes.length ≤ 127) (hsafe : ∀ n ∈ notes, WireSafe n) :
    (run (send_melody_stream notes)).2 = [notes] ∧
    (run (send_melody_stream notes)).1.receiving_mode = false := by
  have hne' : notes.length ≠ 0 := by
    intro h
    exact hne (List.length_eq_zero.mp h)
  have hstream : send_melody_stream notes =
      0 :: notes.length :: ((notes.map noteMidiBytes).flatMap id ++ [127]) := by
    rw [send_melody_stream, if_neg (by simpa using hne), min_eq_right hlen,
      send_melody_data_flatMap]
  have hts : ValidTuples (notes.map noteMidiBytes) := by
    intro t ht
    obtain ⟨n, hn, hnt⟩ := List.mem_map.mp ht
    rw [← hnt]
    exact noteMidiBytes_wire_valid n (hsafe n hn)
  have htslen : (notes.map noteMidiBytes).length = notes.length := by simp
  have htsne : notes.map noteMidiBytes ≠ [] := by
    simp only [ne_eq, List.map_eq_nil_iff]
    exact hne
  have hdecmap : (notes.map noteMidiBytes).map decodeLast6 = notes := by
    rw [List.map_map]
    conv_rhs => rw [← List.map_id notes]
    exact List.map_congr_left fun n hn => decode_encode_wire_safe n (hsafe n hn)
  rw [hstream]
  unfold run
  rw [runFrom_cons, OnMidiMsg_start initState rfl]
  simp only [Option.toList_none, List.nil_append, Prod.mk.eta]
  rw [runFrom_cons, OnMidiMsg_count _ rfl rfl notes.length]
  simp only [Option.toList_none, List.nil_append, Prod.mk.eta]
  rw [runFrom_collect_exact (notes.map noteMidiBytes) _ [127] rfl
    (by show notes.length ≠ 0; exact hne')
    (by show ([] : List ℕ).length % 6 = 0; rfl) hts htsne
    (by show ([] : List NoteEvent).length + (notes.map noteMidiBytes).length = notes.length
        simp [htslen])]
  have hend : ∀ st : RecvState, st.receiving_mode = false →
      runFrom st [127] = (st, []) := by
    intro st hst
    rw [runFrom_cons, OnMidiMsg_idle st hst 127 (by decide)]
    simp [runFrom]
  rw [hend _ (by rfl)]
  constructor
  · simp [hdecmap]
  · rfl

/-- **C3** counterexample: a record with length 127.0 (whole part 127,
allowed by the claim as stated) emits the symbol 127 in its len_whole slot;
the receiver consumes it as the END sentinel, aborts the session with no
batch, and then misparses the remaining symbols, so the round trip loses the
record entirely instead of reproducing it. -/
theorem C3_whole_part_127_counterexample :
    send_melody_stream [c3Note] = [0, 1, 60, 100, 127, 0, 0, 0, 127] ∧
    (run (send_melody_stream [c3Note])).2 = [] ∧
    ([] : List (List NoteEvent)) ≠ [[c3Note]] := by
  have henc : noteMidiBytes c3Note = [60, 100, 127, 0, 0, 0] := by
    have h1 : (127 : ℚ) = ((1270 : ℕ) : ℚ) / 10 := by norm_num
    have h0 : (0 : ℚ) = ((0 : ℕ) : ℚ) / 10 := by norm_num
    show noteMidiBytes ⟨60, 100, (127 : ℚ), (0 : ℚ)⟩ = [60, 100, 127, 0, 0, 0]
    rw [h1, h0]
    have := noteMidiBytes_quantized 60 100 1270 0 (by omega) (by omega)
    simpa using this
  have hstream : send_melody_stream [c3Note] = [0, 1, 60, 100, 127, 0, 0, 0, 127] := by
    rw [send_melody_stream, if_neg (by simp)]
    simp [send_melody_data, henc]
  refine ⟨hstream, ?_, by simp⟩
  rw [hstream]
  decide

/-- Witness for `C3_roundtrip`: one wire-safe record (pitch 60, velocity
100, length 1.5 beats, position 0) survives the round trip. -/
theorem C3_witness :
    (([(⟨60, 100, 3/2, 0⟩ : NoteEvent)] ≠ []) ∧
     ([(⟨60, 100, 3/2, 0⟩ : NoteEvent)].length ≤ 127) ∧
     (∀ n ∈ [(⟨60, 100, 3/2, 0⟩ : NoteEvent)], WireSafe n)) ∧
    ((run (send_melody_stream [(⟨60, 100, 3/2, 0⟩ : NoteEvent)])).2 =
       [[(⟨60, 100, 3/2, 0⟩ : NoteEvent)]] ∧
     (run (send_melody_stream [(⟨60, 100, 3/2, 0⟩ : NoteEvent)])).1.receiving_mode = false) := by
  have hw : ∀ n ∈ [(⟨60, 100, 3/2, 0⟩ : NoteEvent)], WireSafe n := by
    intro n hn
    simp only [List.mem_singleton] at hn
    subst hn
    exact ⟨by norm_num, by norm_num, by norm_num, by norm_num,
      ⟨15, by norm_num, by norm_num⟩, ⟨0, by norm_num, by norm_num⟩⟩
  exact ⟨⟨by simp, by simp, hw⟩, C3_roundtrip _ (by simp) (by simp) hw⟩

/-- **C8** (confirmed): the scheduler visits position groups in strictly
ascending position order; every record of the batch appears in the group of
its own position; and on the spec's example (positions [2.0, 0.5, 2.0, 1.0])
the groups are visited in order [0.5, 1.0, 2.0] with both position-2.0
records in the 2.0 group. -/
theorem C8_scheduler_groups :
    (∀ notes_array : List NoteEvent,
      (group_positions notes_array).Sorted (· < ·) ∧
      ∀ n ∈ notes_array,
        n.position ∈ group_positions notes_array ∧
        n ∈ position_group notes_array n.position) ∧
    group_positions ex8 = [1/2, 1, 2] ∧
    position_group ex8 2 = [⟨60, 100, 1, 2⟩, ⟨62, 100, 1, 2⟩] := by
  refine ⟨?_, ?_, ?_⟩
  · intro notes_array
    constructor
    · apply List.Sorted.lt_of_le
      · exact List.sorted_insertionSort _ _
      · exact ((List.perm_insertionSort _ _).nodup_iff).mpr (List.nodup_dedup _)
    · intro n hn
      have hsorted : n ∈ sorted_notes notes_array :=
        (List.perm_insertionSort _ _).symm.subset hn
      constructor
      · unfold group_positions
        rw [(List.perm_insertionSort _ _).mem_iff, List.mem_dedup]
        exact List.mem_map_of_mem _ hsorted
      · unfold position_group
        rw [List.mem_filter]
        exact ⟨hsorted, by simp⟩
  · norm_num [group_positions, sorted_notes, ex8, List.insertionSort,
      List.orderedInsert, List.dedup, List.map]
  · norm_num [position_group, sorted_notes, ex8, List.insertionSort,
      List.orderedInsert, List.filter]

/-- **C6** counterexample: the scheduler of `device_test.py` (the very lines
the claim cites, 183-199) has NO 30-second clamp: a record with
length_beats = 1000 at 60 BPM makes it sleep the full 1000 seconds. -/
theorem C6_device_no_clamp_counterexample :
    device_record_notes_batch hC6 ⟨false, false⟩ [⟨60, 100, 1000, 0⟩] =
      .ok (⟨false, false⟩,
        [Cmd.setSongPos 0, Cmd.record, Cmd.start, Cmd.noteOn 0 60 100,
         Cmd.sleep 1000, Cmd.noteOn 0 60 0, Cmd.stop, Cmd.record,
         Cmd.sleep (1/5), Cmd.setSongPos 0]) ∧
    (1000 : ℚ) ≠ 30 := by
  constructor
  · norm_num [hC6, device_record_notes_batch, device_record_group,
      group_positions, sorted_notes, position_group, transport_stop,
      transport_start, transport_record, device_tempo, max_length, pyInt,
      List.insertionSort, List.orderedInsert, List.dedup, List.foldlM,
      Bind.bind, Except.bind, pure, Except.pure]
  · norm_num

/-- **C6** (amended): only `_record_notes_at_position` in
`bebop_controller.py` clamps the wait: there the blocking wait equals
`min((max length over group) * 60 / tempo, 30)`, and the claim's example
(length 1000 at 60 BPM, raw wait 1000 s) waits exactly 30 s.  The
`device_test.py` / `bebop_script.py` schedulers sleep the raw, unclamped
value (see the counterexample). -/
theorem C6_controller_wait_clamped :
    (∀ (settings_tempo : ℚ) (mixerTempo : Option ℚ) (maxLen : ℚ),
      controller_wait_seconds settings_tempo mixerTempo maxLen =
        min (maxLen * 60 / controller_tempo settings_tempo mixerTempo) 30) ∧
    controller_wait_seconds 160 (some 60000) 1000 = 30 := by
  constructor
  · intro st mt ml
    unfold controller_wait_seconds
    by_cases h : ml * 60 / controller_tempo st mt > 30
    · rw [if_pos h, min_eq_right h.le]
    · rw [if_neg h, min_eq_left (not_lt.mp h)]
  · norm_num [controller_wait_seconds, controller_tempo]

/-- Pointwise-equal step functions give equal `foldlM` runs over `Except`. -/
theorem foldlM_congr_except {α β : Type} (f g : β → α → Except Unit β)
    (hf : ∀ b a, f b a = g b a) (l : List α) (b : β) :
    l.foldlM f b = l.foldlM g b := by
  induction l generalizing b with
  | nil => rfl
  | cons a l ih =>
      simp only [List.foldlM_cons, hf]
      rcases hga : g b a with e | v
      · rfl
      · simp only [Bind.bind, Except.bind]
        exact ih v

/-- `device_record_group` reads the host only through the channel, the PPQ,
the resolved tempo and the three failure flags. -/
theorem device_record_group_congr (h h' : Host) (t : Transport) (p : ℚ)
    (g : List NoteEvent)
    (hch : h.selectedChannel = h'.selectedChannel)
    (hppq : h.recPPQ = h'.recPPQ)
    (htempo : device_tempo h = device_tempo h')
    (hsf : h.stopFails = h'.stopFails)
    (hstf : h.startFails = h'.startFails)
    (hrf : h.recordFails = h'.recordFails) :
    device_record_group h t p g = device_record_group h' t p g := by
  unfold device_record_group transport_stop transport_start transport_record
  rw [hch, hppq, htempo, hsf, hstf, hrf]

/-- **C7** (amended): of the two host-call failure kinds the claim names,
only the tempo query is caught: a failing `mixer.getCurrentTempo()` (or
failing `import mixer`) is replaced by the default 120 BPM and the batch
proceeds identically to a host reporting 120 BPM — but a failing transport
toggle is NOT caught: it propagates and aborts the remaining position groups
(see the counterexample). -/
theorem C7_tempo_failure_uses_default (h : Host) (t0 : Transport)
    (notes_array : List NoteEvent) (hm : h.mixerTempo = none) :
    device_record_notes_batch h t0 notes_array =
      device_record_notes_batch { h with mixerTempo := some 120000 } t0 notes_array := by
  have htempo : device_tempo h = device_tempo { h with mixerTempo := some 120000 } := by
    rw [device_tempo, device_tempo, hm]
    norm_num
  have hgroup : ∀ t p g, device_record_group h t p g =
      device_record_group { h with mixerTempo := some 120000 } t p g :=
    fun t p g =>
      device_record_group_congr h _ t p g rfl rfl htempo rfl rfl rfl
  unfold device_record_notes_batch
  have hfold := foldlM_congr_except
    (fun (acc : Transport × List Cmd) (p : ℚ) => do
      let g ← device_record_group h acc.1 p (position_group notes_array p)
      Except.ok (g.1, acc.2 ++ g.2))
    (fun (acc : Transport × List Cmd) (p : ℚ) => do
      let g ← device_record_group { h with mixerTempo := some 120000 } acc.1 p
        (position_group notes_array p)
      Except.ok (g.1, acc.2 ++ g.2))
    (fun b a => by simp only [hgroup])
    (group_positions notes_array) (t0, ([] : List Cmd))
  rw [hfold]

/-- **C7** counterexample: with a failing transport toggle
(`transport.start()` raising) on a two-group batch, the whole
`record_notes_batch` call aborts with the uncaught exception — the second
position group is never processed, contradicting the claim that any single
host-call failure is caught and processing continues. -/
theorem C7_transport_failure_aborts_counterexample :
    device_record_notes_batch hC7fail ⟨false, false⟩
      [⟨60, 100, 1, 0⟩, ⟨62, 100, 1, 1⟩] = .error () := by
  norm_num [hC7fail, device_record_notes_batch, device_record_group,
    group_positions, sorted_notes, position_group, transport_stop,
    transport_start, transport_record, device_tempo, max_length, pyInt,
    List.insertionSort, List.orderedInsert, List.dedup, List.foldlM,
    Bind.bind, Except.bind, pure, Except.pure]

/-- Witness for `C7_tempo_failure_uses_default`. -/
theorem C7_witness :
    hC7none.mixerTempo = none ∧
    device_record_notes_batch hC7none ⟨false, false⟩ [⟨60, 100, 1, 0⟩] =
      device_record_notes_batch { hC7none with mixerTempo := some 120000 }
        ⟨false, false⟩ [⟨60, 100, 1, 0⟩] :=
  ⟨rfl, C7_tempo_failure_uses_default hC7none ⟨false, false⟩ [⟨60, 100, 1, 0⟩] rfl⟩

